import Mathlib

set_option maxRecDepth 100000

/-!
Verification of the rendering logic of `QrCodeGenerator.cpp`
(Qt-QrCodeGenerator): a renderer that maps a finished QR symbol (a square
boolean module grid produced by an external encoder) to an SVG document
string, a raster image, or paint commands on a caller-supplied painter.

The embedding below is a direct translation of the C++ source:
  * `QrCode` models `qrcodegen::QrCode` as seen through its `getSize` /
    `getModule` accessors (the encoder itself is external to the repository
    and is passed in as a function where the entry points call it).
  * `toSvgString` mirrors `QrCodeGenerator::toSvgString` (lines 91-116).
  * `qrCodePaint` mirrors `QrCodeGenerator::qrCodePaint` (lines 125-143),
    with `qreal` modelled exactly by `ℚ`.
  * `qrCodeToImage` mirrors `QrCodeGenerator::qrCodeToImage` (lines 152-171).
  * `generateQr`, `paintQr`, `generateSvgQr` mirror the three public entry
    points (lines 46-83); the possible `data_too_long` exception of the
    external `encodeText` is modelled with `Except`.
-/

/-- A QR symbol as the renderer sees it: `getSize` and `getModule`.
`size` is the side length N; `get x y` is true when module (x,y) is dark. -/
structure QrCode where
  size : Nat
  get : Nat → Nat → Bool

/-- The iteration order of the renderer's nested loops
(`for y ... for x ...`): row-major, y outer, x inner. -/
def gridIndices (n : Nat) : List (Nat × Nat) :=
  (List.range n).flatMap (fun y => (List.range n).map (fun x => (x, y)))

/-- Concatenation of a list of strings in order, as a sequence of stream
appends (`sb << ...`) produces it. -/
def strConcat : List String → String
  | [] => ""
  | s :: l => s ++ strConcat l

/-- The sub-path the source writes for a dark module at grid (x,y):
`"M" << (x + border) << "," << (y + border) << "h1v1h-1z"`. -/
def subpathStr (border x y : Nat) : String :=
  "M" ++ toString (x + border) ++ "," ++ toString (y + border) ++ "h1v1h-1z"

/-- What one loop iteration of `toSvgString` appends for the cell `xy`:
nothing for a light module; for a dark module, a separator (empty for the
cell (0,0), a single space otherwise, from `x == 0 && y == 0 ? "" : " "`)
followed by the sub-path. -/
def cellStr (qr : QrCode) (border : Nat) (xy : Nat × Nat) : String :=
  if qr.get xy.1 xy.2 then
    (if xy.1 == 0 && xy.2 == 0 then "" else " ") ++ subpathStr border xy.1 xy.2
  else ""

/-- The content of the `d` attribute emitted by the nested loops of
`toSvgString` (lines 102-112). -/
def svgPathBody (qr : QrCode) (border : Nat) : String :=
  strConcat ((gridIndices qr.size).map (cellStr qr border))

/-- `QrCodeGenerator::toSvgString` (lines 91-116): the exact byte sequence
streamed into the output string, with `qr.getSize() + border * 2` printed
in decimal for the viewBox. -/
def toSvgString (qr : QrCode) (border : Nat) : String :=
  "<?xml version=\"1.0\" encoding=\"UTF-8\"?>"
  ++ "<!DOCTYPE svg PUBLIC \"-//W3C//DTD SVG 1.1//EN\" \"http://www.w3.org/Graphics/SVG/1.1/DTD/svg11.dtd\">"
  ++ "<svg xmlns=\"http://www.w3.org/2000/svg\" version=\"1.1\" viewBox=\"0 0 "
  ++ toString (qr.size + border * 2) ++ " " ++ toString (qr.size + border * 2)
  ++ "\" stroke=\"none\"><rect width=\"100%\" height=\"100%\" fill=\"#FFFFFF\"/><path d=\""
  ++ svgPathBody qr border
  ++ "\" fill=\"#000000\"/></svg>"

/-- The grid positions whose modules are dark, in the loops' row-major
order. -/
def darkIndices (qr : QrCode) : List (Nat × Nat) :=
  (gridIndices qr.size).filter (fun xy => qr.get xy.1 xy.2)

/-- The number of dark modules of the symbol. -/
def darkCount (qr : QrCode) : Nat :=
  (gridIndices qr.size).countP (fun xy => qr.get xy.1 xy.2)

/-- Number of occurrences of the character `c` in the string `s`. -/
def countChar (c : Char) (s : String) : Nat :=
  s.data.count c

/-- From the spec's words: sub-paths "separated by a single space, with no
separator before the very first sub-path". -/
def sepBySpace : List String → String
  | [] => ""
  | s :: l => s ++ strConcat (l.map (fun t => " " ++ t))

/-- From the spec's template: the sub-path written `M x,y h1v1h-1z`, with a
space after `M` and before `h1v1h-1z` as the template shows. -/
def specSubpath (border x y : Nat) : String :=
  "M " ++ toString (x + border) ++ "," ++ toString (y + border) ++ " h1v1h-1z"

/-- From the spec's words (section 6, "bit-exact" template): the SVG
document exactly as the template shows it, elements laid out on lines of
their own, with W = size + 2*borderModules and one spec sub-path per dark
module in row-major order. -/
def specSvgTemplate (qr : QrCode) (border : Nat) : String :=
  "<?xml version=\"1.0\" encoding=\"UTF-8\"?>\n"
  ++ "<!DOCTYPE svg PUBLIC \"-//W3C//DTD SVG 1.1//EN\" \"http://www.w3.org/Graphics/SVG/1.1/DTD/svg11.dtd\">\n"
  ++ "<svg xmlns=\"http://www.w3.org/2000/svg\" version=\"1.1\" viewBox=\"0 0 "
  ++ toString (qr.size + 2 * border) ++ " " ++ toString (qr.size + 2 * border)
  ++ "\" stroke=\"none\">\n"
  ++ "<rect width=\"100%\" height=\"100%\" fill=\"#FFFFFF\"/>\n"
  ++ "<path d=\""
  ++ sepBySpace ((darkIndices qr).map (fun xy => specSubpath border xy.1 xy.2))
  ++ "\" fill=\"#000000\"/>\n"
  ++ "</svg>"

/-- From the spec's words (C2): the code-format sub-paths of the dark
modules in row-major order, joined by a single space, no separator before
the first. -/
def specJoinedPath (qr : QrCode) (border : Nat) : String :=
  sepBySpace ((darkIndices qr).map (fun xy => subpathStr border xy.1 xy.2))

/-- The spec's template amended to what the code emits: the same five
elements in the same order but concatenated directly (no newline between
elements), each sub-path written `M{x},{y}h1v1h-1z` with no interior
spaces, and a sub-path preceded by a single space unless it belongs to the
grid cell (0,0). -/
def specSvgAmended (qr : QrCode) (border : Nat) : String :=
  strConcat
    [ "<?xml version=\"1.0\" encoding=\"UTF-8\"?>",
      "<!DOCTYPE svg PUBLIC \"-//W3C//DTD SVG 1.1//EN\" \"http://www.w3.org/Graphics/SVG/1.1/DTD/svg11.dtd\">",
      "<svg xmlns=\"http://www.w3.org/2000/svg\" version=\"1.1\" viewBox=\"0 0 "
        ++ toString (qr.size + 2 * border) ++ " " ++ toString (qr.size + 2 * border)
        ++ "\" stroke=\"none\">",
      "<rect width=\"100%\" height=\"100%\" fill=\"#FFFFFF\"/>",
      "<path d=\""
        ++ strConcat ((darkIndices qr).map (fun xy =>
            (if xy.1 == 0 && xy.2 == 0 then "" else " ") ++ subpathStr border xy.1 xy.2))
        ++ "\" fill=\"#000000\"/>",
      "</svg>" ]

/-- Fill and outline colors that appear in `qrCodeToImage`. -/
inductive Color
  | white
  | black
deriving DecidableEq

/-- `QBrush` styles used by the renderer's callers. -/
inductive BrushStyle
  | noBrush
  | solidPattern
deriving DecidableEq

/-- A `QBrush`: a style and a color. -/
structure Brush where
  style : BrushStyle
  color : Color
deriving DecidableEq

/-- A `QPen`: either `Qt::NoPen` or a colored pen. -/
inductive Pen
  | noPen
  | colorPen (c : Color)
deriving DecidableEq

/-- One `drawRect` call: the rectangle in the painter's local (grid)
coordinates together with the brush and pen in effect when it was issued. -/
structure DrawCmd where
  x : ℚ
  y : ℚ
  w : ℚ
  h : ℚ
  brush : Brush
  pen : Pen
deriving DecidableEq

/-- A `QPainter`: its world transform (point (u,v) maps to
(sx*u + tx, sy*v + ty)), its brush and pen, and the draw calls issued so
far. -/
structure Painter where
  sx : ℚ
  sy : ℚ
  tx : ℚ
  ty : ℚ
  brush : Brush
  pen : Pen
  cmds : List DrawCmd
deriving DecidableEq

/-- `QPainter::scale`: multiplies the transform's scale components. -/
def Painter.scale (p : Painter) (s t : ℚ) : Painter :=
  { p with sx := p.sx * s, sy := p.sy * t }

/-- `QPainter::translate`: translates the origin in the current (already
scaled) coordinate system. -/
def Painter.translate (p : Painter) (dx dy : ℚ) : Painter :=
  { p with tx := p.tx + p.sx * dx, ty := p.ty + p.sy * dy }

/-- `QPainter::drawRect`: issues a rectangle with the current brush and
pen. -/
def Painter.drawRect (p : Painter) (x y w h : ℚ) : Painter :=
  { p with cmds := p.cmds ++ [⟨x, y, w, h, p.brush, p.pen⟩] }

/-- `qreal scale = qreal(size) / (qrCode.getSize() + 2 * border)`
(line 127): the int sum `getSize() + 2*border` divided into the size. -/
def paintScale (qr : QrCode) (border size : Nat) : ℚ :=
  (size : ℚ) / ((qr.size + 2 * border : Nat) : ℚ)

/-- `QrCodeGenerator::qrCodePaint` (lines 125-143): scale, translate by
(border - 0.02, border - 0.02), then one 1.04×1.04 `drawRect` at (x,y) for
every dark module, row-major. -/
def qrCodePaint (p : Painter) (qr : QrCode) (border size : Nat) : Painter :=
  let scale := paintScale qr border size
  let p1 := (p.scale scale scale).translate ((border : ℚ) - 0.02) ((border : ℚ) - 0.02)
  (gridIndices qr.size).foldl
    (fun q xy =>
      if qr.get xy.1 xy.2 then q.drawRect (xy.1 : ℚ) (xy.2 : ℚ) 1.04 1.04 else q) p1

/-- One operation recorded on an image: the initial white fill or a painted
rectangle. -/
inductive ImgOp
  | fill (c : Color)
  | draw (cmd : DrawCmd)
deriving DecidableEq

/-- A `QImage`: its pixel dimensions and the operations applied to it, in
order. -/
structure QImage where
  width : Nat
  height : Nat
  ops : List ImgOp
deriving DecidableEq

/-- `QrCodeGenerator::qrCodeToImage` (lines 152-171): a size×size ARGB
image, filled entirely white, then painted through a fresh painter whose
brush is solid black and whose pen is `Qt::NoPen`. -/
def qrCodeToImage (qr : QrCode) (border size : Nat) : QImage :=
  let painter : Painter :=
    { sx := 1, sy := 1, tx := 0, ty := 0,
      brush := ⟨BrushStyle.solidPattern, Color.black⟩, pen := Pen.noPen, cmds := [] }
  let done := qrCodePaint painter qr border size
  { width := size, height := size,
    ops := ImgOp.fill Color.white :: done.cmds.map ImgOp.draw }

/-- The qrcodegen error-correction levels. -/
inductive Ecc
  | low
  | medium
  | quartile
  | high
deriving DecidableEq

/-- The single failure of the external encoder
(`qrcodegen::data_too_long`). -/
structure EncodingFailure where
  msg : String
deriving DecidableEq

/-- The external `qrcodegen::QrCode::encodeText` collaborator: UTF-8 text
and an ECC level to a symbol, or an encoding failure. The encoder is not
part of this repository, so the entry points take it as a parameter. -/
abbrev Encoder : Type := String → Ecc → Except EncodingFailure QrCode

/-- `QrCodeGenerator::generateQr` (lines 46-52): encode, then render to an
image; an encoding failure propagates. -/
def generateQr (encode : Encoder) (data : String) (size border : Nat) (ecc : Ecc) :
    Except EncodingFailure QImage :=
  (encode data ecc).map (fun qrCode => qrCodeToImage qrCode border size)

/-- `QrCodeGenerator::paintQr` (lines 63-68): encode, then paint on the
caller's painter; an encoding failure propagates. -/
def paintQr (encode : Encoder) (painter : Painter) (data : String) (size border : Nat)
    (ecc : Ecc) : Except EncodingFailure Painter :=
  (encode data ecc).map (fun qrCode => qrCodePaint painter qrCode border size)

/-- `QrCodeGenerator::generateSvgQr` (lines 77-83): encode, then render to
the SVG string; an encoding failure propagates. -/
def generateSvgQr (encode : Encoder) (data : String) (border : Nat) (ecc : Ecc) :
    Except EncodingFailure String :=
  (encode data ecc).map (fun qrCode => toSvgString qrCode border)

/-- An encoder that always succeeds with the 1×1 all-dark symbol. -/
def encodeOne : Encoder := fun _ _ => Except.ok ⟨1, fun _ _ => true⟩

/-- A 1×1 symbol whose single module is dark. -/
def qrOne : QrCode := ⟨1, fun _ _ => true⟩

/-- A 2×2 symbol whose only dark module is (1,1); its module (0,0) is
light. -/
def qrCorner : QrCode := ⟨2, fun x y => x == 1 && y == 1⟩

/-- A caller's painter with the identity transform, a solid black brush and
no pen. -/
def painter0 : Painter :=
  ⟨1, 1, 0, 0, ⟨BrushStyle.solidPattern, Color.black⟩, Pen.noPen, []⟩

example : gridIndices 2 = [(0, 0), (1, 0), (0, 1), (1, 1)] := by decide

theorem strConcat_cons (s : String) (l : List String) :
    strConcat (s :: l) = s ++ strConcat l := rfl

theorem strConcat_append (l₁ l₂ : List String) :
    strConcat (l₁ ++ l₂) = strConcat l₁ ++ strConcat l₂ := by
  induction l₁ with
  | nil => simp [strConcat]
  | cons s l ih => simp [strConcat, ih, String.append_assoc]

theorem countChar_append (c : Char) (a b : String) :
    countChar c (a ++ b) = countChar c a + countChar c b := by
  simp [countChar, String.data_append, List.count_append]

theorem digitChar_ne_M (m : Nat) (hm : m < 10) : Nat.digitChar m ≠ 'M' := by
  interval_cases m <;> decide

theorem toDigitsCore_chars (fuel : Nat) (n : Nat) (ds : List Char) (c : Char)
    (hc : c ∈ Nat.toDigitsCore 10 fuel n ds) :
    c ∈ ds ∨ ∃ m, m < 10 ∧ c = Nat.digitChar m := by
  induction fuel generalizing n ds with
  | zero => simp [Nat.toDigitsCore] at hc; exact Or.inl hc
  | succ fuel ih =>
    rw [Nat.toDigitsCore] at hc
    split at hc
    · rcases List.mem_cons.mp hc with h | h
      · exact Or.inr ⟨n % 10, Nat.mod_lt n (by norm_num), h⟩
      · exact Or.inl h
    · rcases ih _ _ hc with h | h
      · rcases List.mem_cons.mp h with h' | h'
        · exact Or.inr ⟨n % 10, Nat.mod_lt n (by norm_num), h'⟩
        · exact Or.inl h'
      · exact Or.inr h

theorem countChar_M_toString (n : Nat) : countChar 'M' (toString n) = 0 := by
  have hdata : (toString n).data = Nat.toDigits 10 n := rfl
  rw [countChar, hdata, List.count_eq_zero]
  intro hmem
  rw [Nat.toDigits] at hmem
  rcases toDigitsCore_chars _ _ _ _ hmem with h | ⟨m, hm, he⟩
  · simp at h
  · exact digitChar_ne_M m hm he.symm

theorem countChar_M_subpathStr (border x y : Nat) :
    countChar 'M' (subpathStr border x y) = 1 := by
  have h1 : countChar 'M' "M" = 1 := rfl
  have h2 : countChar 'M' "," = 0 := rfl
  have h3 : countChar 'M' "h1v1h-1z" = 0 := rfl
  simp [subpathStr, countChar_append, countChar_M_toString, h1, h2, h3]

theorem strConcat_map_cellStr (qr : QrCode) (border : Nat) (L : List (Nat × Nat)) :
    strConcat (L.map (cellStr qr border)) =
      strConcat ((L.filter fun xy => qr.get xy.1 xy.2).map
        (fun xy =>
          (if xy.1 == 0 && xy.2 == 0 then "" else " ") ++ subpathStr border xy.1 xy.2)) := by
  induction L with
  | nil => rfl
  | cons a L ih =>
    cases hg : qr.get a.1 a.2 <;>
      simp [cellStr, List.filter_cons, hg, strConcat, ih]

theorem strConcat_map_cellStr_of_not_first (qr : QrCode) (border : Nat)
    (L : List (Nat × Nat)) (hL : ∀ xy ∈ L, (xy.1 == 0 && xy.2 == 0) = false) :
    strConcat (L.map (cellStr qr border)) =
      strConcat ((L.filter fun xy => qr.get xy.1 xy.2).map
        (fun xy => " " ++ subpathStr border xy.1 xy.2)) := by
  induction L with
  | nil => rfl
  | cons a L ih =>
    have ha := hL a (List.mem_cons_self a L)
    have hrest : ∀ xy ∈ L, (xy.1 == 0 && xy.2 == 0) = false :=
      fun xy hxy => hL xy (List.mem_cons_of_mem a hxy)
    cases hg : qr.get a.1 a.2 <;>
      simp [cellStr, List.filter_cons, hg, ha, strConcat, ih hrest]

theorem gridIndices_succ (n : Nat) :
    gridIndices (n + 1) =
      (0, 0) :: ((List.range n).map (fun x => (x + 1, 0)) ++
        (List.range n).flatMap (fun y => (List.range (n + 1)).map (fun x => (x, y + 1)))) := by
  simp [gridIndices, List.range_succ_eq_map, List.map_map, Function.comp_def,
    List.flatMap_cons, List.flatMap_map, Nat.succ_eq_add_one]

theorem notFirst_of_mem_rest (n : Nat) (xy : Nat × Nat)
    (h : xy ∈ (List.range n).map (fun x => (x + 1, 0)) ++
        (List.range n).flatMap (fun y => (List.range (n + 1)).map (fun x => (x, y + 1)))) :
    (xy.1 == 0 && xy.2 == 0) = false := by
  simp only [List.mem_append, List.mem_map, List.mem_flatMap, List.mem_range] at h
  rcases h with ⟨x, hx, rfl⟩ | ⟨y, hy, x, hx, rfl⟩ <;> simp

theorem countChar_strConcat (c : Char) (l : List String) :
    countChar c (strConcat l) = (l.map (countChar c)).sum := by
  induction l with
  | nil => rfl
  | cons s l ih => simp [strConcat, countChar_append, ih]

theorem sum_map_one {α : Type} (l : List α) (f : α → Nat) (h : ∀ a ∈ l, f a = 1) :
    (l.map f).sum = l.length := by
  induction l with
  | nil => rfl
  | cons a l ih =>
    simp [h a (List.mem_cons_self a l),
      ih (fun b hb => h b (List.mem_cons_of_mem a hb)), Nat.add_comm]

theorem darkIndices_length (qr : QrCode) : (darkIndices qr).length = darkCount qr := by
  rw [darkIndices, darkCount, List.countP_eq_length_filter]

theorem paintLoop_spec (qr : QrCode) (L : List (Nat × Nat)) (p : Painter) :
    L.foldl
      (fun q xy =>
        if qr.get xy.1 xy.2 then q.drawRect (xy.1 : ℚ) (xy.2 : ℚ) 1.04 1.04 else q) p =
      { p with cmds := (p.cmds ++ (L.filter (fun xy => qr.get xy.1 xy.2)).map
          (fun xy => ⟨(xy.1 : ℚ), (xy.2 : ℚ), 1.04, 1.04, p.brush, p.pen⟩)) } := by
  induction L generalizing p with
  | nil => simp
  | cons a L ih =>
    cases hg : qr.get a.1 a.2
    · simp only [List.foldl_cons, hg, Bool.false_eq_true, if_false]
      rw [ih p]
      simp [List.filter_cons, hg]
    · simp only [List.foldl_cons, hg, if_true]
      rw [ih (p.drawRect (a.1 : ℚ) (a.2 : ℚ) 1.04 1.04)]
      simp [Painter.drawRect, List.filter_cons, hg]

theorem qrCodePaint_spec (p : Painter) (qr : QrCode) (border size : Nat) :
    qrCodePaint p qr border size =
      { sx := p.sx * paintScale qr border size,
        sy := p.sy * paintScale qr border size,
        tx := p.tx + p.sx * paintScale qr border size * ((border : ℚ) - 0.02),
        ty := p.ty + p.sy * paintScale qr border size * ((border : ℚ) - 0.02),
        brush := p.brush,
        pen := p.pen,
        cmds := p.cmds ++ (darkIndices qr).map
          (fun xy => ⟨(xy.1 : ℚ), (xy.2 : ℚ), 1.04, 1.04, p.brush, p.pen⟩) } := by
  simp only [qrCodePaint, paintLoop_spec, Painter.scale, Painter.translate, darkIndices]

/-- C1, counterexample: for the 1×1 all-dark symbol with border 1 the
string returned by `toSvgString` is not byte-for-byte the spec template
with its element-per-line layout and its `M x,y h1v1h-1z` sub-path
spacing. -/
theorem c1_svg_template_counterexample :
    toSvgString qrOne 1 ≠ specSvgTemplate qrOne 1 := by
  decide

/-- C1 (amended): for every symbol and every border value, the SVG string
returned by `toSvgString` is exactly the spec template's five elements —
XML declaration, DOCTYPE, `<svg>` with viewBox "0 0 W W" (W = size +
2*border) and stroke "none", the white 100%×100% background rect, the one
`<path>` filled #000000, and `</svg>` — concatenated directly with no
newline between elements, each dark module contributing
`M{x+border},{y+border}h1v1h-1z`, preceded by a single space except for
the module of grid cell (0,0). -/
theorem c1_svg_matches_amended_template (qr : QrCode) (border : Nat) :
    toSvgString qr border = specSvgAmended qr border := by
  have hb := strConcat_map_cellStr qr border (gridIndices qr.size)
  have h1 :
      ("\" stroke=\"none\"><rect width=\"100%\" height=\"100%\" fill=\"#FFFFFF\"/><path d=\"" : String) =
        "\" stroke=\"none\">" ++
          ("<rect width=\"100%\" height=\"100%\" fill=\"#FFFFFF\"/>" ++ "<path d=\"") := rfl
  have h2 : ("\" fill=\"#000000\"/></svg>" : String) =
      "\" fill=\"#000000\"/>" ++ "</svg>" := rfl
  rw [toSvgString, specSvgAmended, svgPathBody, hb, darkIndices, h1, h2,
    Nat.mul_comm border 2]
  simp only [strConcat, String.append_assoc, String.append_empty]

/-- C2, counterexample: for the 2×2 symbol whose only dark module is (1,1)
— so its module (0,0) is light — the emitted path data has a separator
space before the first (and only) emitted sub-path, so it is not the
space-separated join of the sub-paths. -/
theorem c2_separator_counterexample :
    svgPathBody qrCorner 0 ≠ specJoinedPath qrCorner 0 := by
  decide

/-- C2 (amended): the sub-paths are emitted in row-major order (y outer,
x inner) and every emitted sub-path is preceded by exactly one space
except the one of grid cell (0,0), which has none. Hence for every symbol
whose module (0,0) is dark — as in every real QR symbol, where (0,0) is a
finder-pattern corner — consecutive sub-paths are separated by exactly one
space and no separator precedes the first. -/
theorem c2_separator_rule_amended (qr : QrCode) (border : Nat)
    (h : qr.get 0 0 = true) :
    svgPathBody qr border = specJoinedPath qr border := by
  obtain ⟨n, g⟩ := qr
  cases n with
  | zero => rfl
  | succ n =>
    have h00 : g 0 0 = true := h
    rw [svgPathBody, specJoinedPath, darkIndices]
    rw [show (QrCode.mk (n + 1) g).size = n + 1 from rfl, gridIndices_succ,
      List.map_cons, List.filter_cons]
    rw [strConcat_cons, strConcat_map_cellStr_of_not_first _ _ _ (notFirst_of_mem_rest n)]
    simp only [cellStr, h00, show (QrCode.mk (n + 1) g).get = g from rfl]
    simp [sepBySpace, strConcat, List.map_map, Function.comp_def]

/-- C2, witness: the amended separator rule at the 1×1 all-dark symbol
with border 0. -/
theorem c2_separator_rule_witness :
    qrOne.get 0 0 = true ∧ svgPathBody qrOne 0 = specJoinedPath qrOne 0 :=
  ⟨rfl, c2_separator_rule_amended qrOne 0 rfl⟩

/-- C3: for every symbol and border, the number of `M...z` sub-paths in
the emitted path data — counted as the occurrences of the letter `M`,
which appears exactly once per sub-path and nowhere else — equals the
number of dark modules, and the emitted path data consists exactly of, for
each dark module (x,y) in row-major order, its separator followed by the
sub-path `M(x+border),(y+border)h1v1h-1z`. -/
theorem c3_subpath_count_and_coordinates (qr : QrCode) (border : Nat) :
    countChar 'M' (svgPathBody qr border) = darkCount qr ∧
    svgPathBody qr border =
      strConcat ((darkIndices qr).map (fun xy =>
        (if xy.1 == 0 && xy.2 == 0 then "" else " ") ++
          ("M" ++ toString (xy.1 + border) ++ "," ++ toString (xy.2 + border) ++ "h1v1h-1z"))) := by
  constructor
  · rw [svgPathBody, strConcat_map_cellStr, countChar_strConcat, List.map_map]
    rw [sum_map_one]
    · rw [darkCount, List.countP_eq_length_filter]
    · intro xy _
      show countChar 'M'
          ((if xy.1 == 0 && xy.2 == 0 then "" else " ") ++ subpathStr border xy.1 xy.2) = 1
      rw [countChar_append, countChar_M_subpathStr]
      split <;> decide
  · exact strConcat_map_cellStr qr border (gridIndices qr.size)

/-- C4: for every painter, symbol, border and size, `qrCodePaint` scales
both axes uniformly by outputSizePx / (N + 2*borderModules), translates
the origin by (borderModules - 0.02, borderModules - 0.02) in grid units
(the translation enters the transform through the just-scaled axes), and
draws each dark module, row-major, as a 1.04×1.04 square with top-left
corner at its grid position (x,y). -/
theorem c4_paint_transform_and_modules (p : Painter) (qr : QrCode) (border size : Nat) :
    (qrCodePaint p qr border size).sx =
      p.sx * ((size : ℚ) / ((qr.size : ℚ) + 2 * (border : ℚ))) ∧
    (qrCodePaint p qr border size).sy =
      p.sy * ((size : ℚ) / ((qr.size : ℚ) + 2 * (border : ℚ))) ∧
    (qrCodePaint p qr border size).tx =
      p.tx + (qrCodePaint p qr border size).sx * ((border : ℚ) - 0.02) ∧
    (qrCodePaint p qr border size).ty =
      p.ty + (qrCodePaint p qr border size).sy * ((border : ℚ) - 0.02) ∧
    (qrCodePaint p qr border size).cmds =
      p.cmds ++ (darkIndices qr).map
        (fun xy => ⟨(xy.1 : ℚ), (xy.2 : ℚ), 1.04, 1.04, p.brush, p.pen⟩) := by
  have hcast : ((qr.size + 2 * border : Nat) : ℚ) = (qr.size : ℚ) + 2 * (border : ℚ) := by
    push_cast
    ring
  rw [qrCodePaint_spec]
  refine ⟨?_, ?_, ?_, ?_, rfl⟩ <;> simp [paintScale, hcast]

/-- C5: whenever the encoder succeeds, `generateQr` returns the image
rendered from the obtained symbol, that image is exactly size×size pixels
whatever the symbol side and border are, and its operations start with a
full white fill followed only by painted rectangles. -/
theorem c5_image_dimensions_and_background (encode : Encoder) (data : String)
    (size border : Nat) (ecc : Ecc) (qr : QrCode)
    (h : encode data ecc = Except.ok qr) :
    generateQr encode data size border ecc = Except.ok (qrCodeToImage qr border size) ∧
    (qrCodeToImage qr border size).width = size ∧
    (qrCodeToImage qr border size).height = size ∧
    ∃ draws : List DrawCmd,
      (qrCodeToImage qr border size).ops = ImgOp.fill Color.white :: draws.map ImgOp.draw := by
  refine ⟨?_, rfl, rfl, ?_⟩
  · simp [generateQr, h, Except.map]
  · exact ⟨(qrCodePaint ⟨1, 1, 0, 0, ⟨BrushStyle.solidPattern, Color.black⟩, Pen.noPen, []⟩
      qr border size).cmds, rfl⟩

/-- C5, witness: the image dimensions and white background at a concrete
encoder, text and parameters. -/
theorem c5_image_dimensions_witness :
    generateQr encodeOne "HELLO" 4 1 Ecc.low = Except.ok (qrCodeToImage qrOne 1 4) ∧
    (qrCodeToImage qrOne 1 4).width = 4 ∧
    (qrCodeToImage qrOne 1 4).height = 4 ∧
    ∃ draws : List DrawCmd,
      (qrCodeToImage qrOne 1 4).ops = ImgOp.fill Color.white :: draws.map ImgOp.draw :=
  c5_image_dimensions_and_background encodeOne "HELLO" 4 1 Ecc.low qrOne rfl

/-- C6: each rendering entry point is a deterministic pure function of its
inputs: calling it twice on equal inputs yields identical output. -/
theorem c6_rendering_deterministic (encode : Encoder) (p p' : Painter)
    (data data' : String) (size size' border border' : Nat) (ecc ecc' : Ecc)
    (hd : data = data') (hs : size = size') (hb : border = border')
    (he : ecc = ecc') (hp : p = p') :
    generateQr encode data size border ecc = generateQr encode data' size' border' ecc' ∧
    paintQr encode p data size border ecc = paintQr encode p' data' size' border' ecc' ∧
    generateSvgQr encode data border ecc = generateSvgQr encode data' border' ecc' := by
  subst hd
  subst hs
  subst hb
  subst he
  subst hp
  exact ⟨rfl, rfl, rfl⟩

/-- C6, witness: determinism at a concrete encoder, text, painter and
parameters. -/
theorem c6_rendering_deterministic_witness :
    generateQr encodeOne "QR" 10 2 Ecc.medium = generateQr encodeOne "QR" 10 2 Ecc.medium ∧
    paintQr encodeOne painter0 "QR" 10 2 Ecc.medium =
      paintQr encodeOne painter0 "QR" 10 2 Ecc.medium ∧
    generateSvgQr encodeOne "QR" 2 Ecc.medium = generateSvgQr encodeOne "QR" 2 Ecc.medium :=
  c6_rendering_deterministic encodeOne painter0 painter0 "QR" "QR" 10 10 2 2
    Ecc.medium Ecc.medium rfl rfl rfl rfl rfl

/-- C7: rendering never fails: even when the requested size is smaller
than N + 2*border the scale factor is strictly between 0 and 1 and the
paint pass still completes, issuing one rectangle per dark module. -/
theorem c7_rendering_total_no_error (p : Painter) (qr : QrCode) (border size : Nat)
    (hN : 1 ≤ qr.size) (hpos : 0 < size) (hlt : size < qr.size + 2 * border) :
    0 < paintScale qr border size ∧ paintScale qr border size < 1 ∧
    (qrCodePaint p qr border size).cmds.length = p.cmds.length + darkCount qr := by
  have hD : (0 : ℚ) < ((qr.size + 2 * border : Nat) : ℚ) := by
    have hn : 0 < qr.size + 2 * border := by omega
    exact_mod_cast hn
  refine ⟨?_, ?_, ?_⟩
  · exact div_pos (by exact_mod_cast hpos) hD
  · rw [paintScale, div_lt_one hD]
    exact_mod_cast hlt
  · rw [qrCodePaint_spec]
    simp [darkIndices_length]

/-- C7, witness: a degenerate request (size 3 for a symbol needing 5 grid
units) still renders, with scale 3/5. -/
theorem c7_rendering_total_witness :
    0 < paintScale qrOne 2 3 ∧ paintScale qrOne 2 3 < 1 ∧
    (qrCodePaint painter0 qrOne 2 3).cmds.length = painter0.cmds.length + darkCount qrOne :=
  c7_rendering_total_no_error painter0 qrOne 2 3 (by decide) (by decide) (by decide)

/-- C8: each entry point fails exactly when the external encoder fails,
with the encoder's failure value unchanged (never caught or transformed),
and succeeds with the rendered output whenever the encoder succeeds, so no
other error kind is ever produced. -/
theorem c8_encoding_failure_propagation (encode : Encoder) (p : Painter) (data : String)
    (size border : Nat) (ecc : Ecc) :
    (∀ e, generateQr encode data size border ecc = Except.error e ↔
      encode data ecc = Except.error e) ∧
    (∀ e, paintQr encode p data size border ecc = Except.error e ↔
      encode data ecc = Except.error e) ∧
    (∀ e, generateSvgQr encode data border ecc = Except.error e ↔
      encode data ecc = Except.error e) ∧
    (∀ qr, encode data ecc = Except.ok qr →
      generateQr encode data size border ecc = Except.ok (qrCodeToImage qr border size) ∧
      paintQr encode p data size border ecc = Except.ok (qrCodePaint p qr border size) ∧
      generateSvgQr encode data border ecc = Except.ok (toSvgString qr border)) := by
  cases h : encode data ecc <;>
    simp [generateQr, paintQr, generateSvgQr, h, Except.map]

/-- C9: `qrCodePaint` leaves the caller's brush and pen exactly as they
were, mutates only the coordinate transform (scaled then translated, and
not restored before returning), and every rectangle it issues is filled
with the caller's own brush and pen. -/
theorem c9_painter_frame_effect (p : Painter) (qr : QrCode) (border size : Nat) :
    (qrCodePaint p qr border size).brush = p.brush ∧
    (qrCodePaint p qr border size).pen = p.pen ∧
    (qrCodePaint p qr border size).sx = p.sx * paintScale qr border size ∧
    (qrCodePaint p qr border size).sy = p.sy * paintScale qr border size ∧
    (qrCodePaint p qr border size).tx =
      p.tx + p.sx * paintScale qr border size * ((border : ℚ) - 0.02) ∧
    (qrCodePaint p qr border size).ty =
      p.ty + p.sy * paintScale qr border size * ((border : ℚ) - 0.02) ∧
    ∃ newCmds : List DrawCmd,
      (qrCodePaint p qr border size).cmds = p.cmds ++ newCmds ∧
      ∀ c ∈ newCmds, c.brush = p.brush ∧ c.pen = p.pen := by
  rw [qrCodePaint_spec]
  refine ⟨rfl, rfl, rfl, rfl, rfl, rfl, ⟨_, rfl, ?_⟩⟩
  intro c hc
  simp only [List.mem_map] at hc
  obtain ⟨xy, _, rfl⟩ := hc
  exact ⟨rfl, rfl⟩

/-- C10: for every symbol with N ≥ 1 and every border, the scale divisor
N + 2*border is strictly positive (also after the conversion to the
rational the division is performed in), and every grid position the SVG
and paint loops pass to the module accessor lies within 0 ≤ x < N,
0 ≤ y < N. -/
theorem c10_arithmetic_and_access_safety (qr : QrCode) (border : Nat)
    (hN : 1 ≤ qr.size) :
    0 < qr.size + 2 * border ∧
    ((qr.size + 2 * border : Nat) : ℚ) ≠ 0 ∧
    ∀ xy ∈ gridIndices qr.size, xy.1 < qr.size ∧ xy.2 < qr.size := by
  have hpos : 0 < qr.size + 2 * border := by omega
  refine ⟨hpos, ?_, ?_⟩
  · exact Nat.cast_ne_zero.mpr (by omega)
  · intro xy hxy
    simp only [gridIndices, List.mem_flatMap, List.mem_map, List.mem_range] at hxy
    obtain ⟨y, hy, x, hx, rfl⟩ := hxy
    exact ⟨hx, hy⟩

/-- C10, witness: safety at the 1×1 all-dark symbol with border 1. -/
theorem c10_safety_witness :
    0 < qrOne.size + 2 * 1 ∧
    ((qrOne.size + 2 * 1 : Nat) : ℚ) ≠ 0 ∧
    ∀ xy ∈ gridIndices qrOne.size, xy.1 < qrOne.size ∧ xy.2 < qrOne.size :=
  c10_arithmetic_and_access_safety qrOne 1 (by decide)

example :
    toSvgString ⟨1, fun _ _ => true⟩ 1 =
      "<?xml version=\"1.0\" encoding=\"UTF-8\"?><!DOCTYPE svg PUBLIC \"-//W3C//DTD SVG 1.1//EN\" \"http://www.w3.org/Graphics/SVG/1.1/DTD/svg11.dtd\"><svg xmlns=\"http://www.w3.org/2000/svg\" version=\"1.1\" viewBox=\"0 0 3 3\" stroke=\"none\"><rect width=\"100%\" height=\"100%\" fill=\"#FFFFFF\"/><path d=\"M1,1h1v1h-1z\" fill=\"#000000\"/></svg>" := by
  decide
